import Mathlib

/-!
Verification of the test-identifier codec, record schema, record store and
bulk loader of the Reloading repository (src/app.py, src/utils.py,
src/analysis.py, src/editor.py).

Python strings are modelled as `List Char` (ASCII data), Python ints as `ℤ`,
Python floats as `ℚ` (exact rational arithmetic; the decimal formatting and
rounding logic of the source is modelled exactly, operating on numerator and
denominator so that everything evaluates by kernel reduction), Python dicts
holding YAML data as a first-order nested-mapping type.
-/

/-! ### Basic character and digit utilities -/

/-- Numeric value of a decimal digit character. -/
def digitVal (c : Char) : Nat := c.toNat - 48

/-- Value of a list of decimal digit characters, most significant first. -/
def valDigits (cs : List Char) : Nat := cs.foldl (fun a c => 10 * a + digitVal c) 0

/-- Decimal digits of `m` (fuel-based so that it reduces by kernel evaluation;
fuel `m + 1` always suffices). -/
def natToCharsAux : Nat → Nat → List Char
  | 0, _ => []
  | fuel + 1, m =>
    if m < 10 then [Nat.digitChar m]
    else natToCharsAux fuel (m / 10) ++ [Nat.digitChar (m % 10)]

/-- Decimal rendering of a natural number, as Python `str` renders an `int ≥ 0`. -/
def natToChars (m : Nat) : List Char := natToCharsAux (m + 1) m

/-- Decimal rendering of an integer, as Python `str(int)`. -/
def intToChars (z : ℤ) : List Char :=
  if z < 0 then '-' :: natToChars z.natAbs else natToChars z.natAbs

/-- Python `int(float)`: truncation toward zero. -/
def pyTrunc (q : ℚ) : ℤ := q.num.tdiv (q.den : ℤ)

/-- Python `x == int(x)` for a float `x`: the value is integral. -/
def qIsInt (q : ℚ) : Bool := q.den == 1

/-- Round-half-even of `m * q` to an integer, computed on numerator and
denominator (the rounding used by Python float formatting and `round`). -/
def rheMul (m : ℤ) (q : ℚ) : ℤ :=
  let a := m * q.num
  let b := (q.den : ℤ)
  let d := Int.fdiv a b
  let r := a - d * b
  if 2 * r = b then (if d % 2 = 0 then d else d + 1)
  else if 2 * r < b then d else d + 1

/-- The three decimal digits of `r < 1000`, zero padded. -/
def pad3 (r : Nat) : List Char :=
  [Nat.digitChar (r / 100), Nat.digitChar (r / 10 % 10), Nat.digitChar (r % 10)]

/-- Python `f-string` formatting with `:.3f`: round to 3 decimals (half-even)
and print with exactly three digits after the point.  (For negative values
that round to zero Python prints a negative zero `-0.000`; that corner is not
exercised by any theorem below.) -/
def formatFixed3 (q : ℚ) : List Char :=
  let n := rheMul 1000 q
  let m := n.natAbs
  let body := natToChars (m / 1000) ++ '.' :: pad3 (m % 1000)
  if n < 0 then '-' :: body else body

/-- Python `s.rstrip(S)`: remove trailing characters that belong to the set
`S` (note `rstrip` treats its argument as a character set). -/
def pyRstripSet (cs : List Char) (S : List Char) : List Char :=
  (cs.reverse.dropWhile (fun c => S.contains c)).reverse

/-! ### Python numeric literal parsing (`float(s)` / `int(s)`) -/

/-- Exponent suffix and final value assembly for `float` parsing: the mantissa
is `num / den`; accepts an optional `e`/`E` exponent part. -/
def pyExpPart (rest : List Char) (num : ℤ) (den : ℕ) : Option ℚ :=
  match rest with
  | [] => some (mkRat num den)
  | e :: r =>
    if e = 'e' ∨ e = 'E' then
      let sp : Bool × List Char :=
        match r with
        | '+' :: t => (true, t)
        | '-' :: t => (false, t)
        | _ => (true, r)
      if sp.2 ≠ [] ∧ sp.2.all Char.isDigit then
        let ex := valDigits sp.2
        if sp.1 then some (mkRat (num * (10 : ℤ) ^ ex) den)
        else some (mkRat num (den * 10 ^ ex))
      else none
    else none

/-- Mantissa of a Python float literal after sign removal:
`digits [. digits] [exponent]`, at least one digit before or after the dot. -/
def pyFloatCore (cs : List Char) : Option ℚ :=
  let ip := cs.takeWhile Char.isDigit
  let r1 := cs.dropWhile Char.isDigit
  match r1 with
  | '.' :: r2 =>
    let fp := r2.takeWhile Char.isDigit
    let r3 := r2.dropWhile Char.isDigit
    if ip = [] ∧ fp = [] then none
    else pyExpPart r3 ((valDigits ip * 10 ^ fp.length + valDigits fp : ℕ) : ℤ) (10 ^ fp.length)
  | _ => if ip = [] then none else pyExpPart r1 ((valDigits ip : ℕ) : ℤ) 1

/-- Python `float(s)` on the decimal-literal fragment of its grammar
(optional sign, digits, dot, exponent).  Returns `none` where Python raises
`ValueError`. -/
def pyFloat (cs : List Char) : Option ℚ :=
  match cs with
  | '+' :: r => pyFloatCore r
  | '-' :: r => (pyFloatCore r).map (fun q => mkRat (-q.num) q.den)
  | _ => pyFloatCore cs

/-- Python `int(s)`: optional sign and a nonempty run of digits.  Returns
`none` where Python raises `ValueError`. -/
def pyIntParse (cs : List Char) : Option ℤ :=
  let core : List Char → Option ℤ := fun ds =>
    if ds ≠ [] ∧ ds.all Char.isDigit then some (Int.ofNat (valDigits ds)) else none
  match cs with
  | '+' :: r => core r
  | '-' :: r => (core r).map Neg.neg
  | _ => core cs

/-! ### Python `str.split` -/

/-- First occurrence of the separator `sep` in the scanned string: returns the
(reversed-accumulator corrected) prefix before the match and the remainder
after the match. -/
def pySplitFirstAux (sep : List Char) : List Char → List Char → Option (List Char × List Char)
  | [], _ => none
  | c :: rest, acc =>
    if sep.isPrefixOf (c :: rest) then some (acc.reverse, (c :: rest).drop sep.length)
    else pySplitFirstAux sep rest (c :: acc)

/-- Repeated leftmost splitting, with fuel (`s.length + 1` always suffices for
a nonempty separator since every split strictly shortens the remainder). -/
def pySplitN (sep : List Char) : Nat → List Char → List (List Char)
  | 0, s => [s]
  | fuel + 1, s =>
    match pySplitFirstAux sep s [] with
    | none => [s]
    | some (a, b) => a :: pySplitN sep fuel b

/-- Python `s.split(sep)` for a nonempty separator: split on every
non-overlapping occurrence, scanning left to right; `"".split(sep) = [""]`.
(Python raises on an empty separator; that case is mapped to `[s]` and never
used.) -/
def pySplit (sep s : List Char) : List (List Char) :=
  match sep with
  | [] => [s]
  | _ :: _ => pySplitN sep (s.length + 1) s

/-! ### The identifier codec (src/app.py) -/

/-- Python regex `\w` on ASCII input: alphanumeric or underscore. -/
def isPyWordChar (c : Char) : Bool := c.isAlphanum || c == '_'

/-- Python regex `\s` on ASCII input. -/
def isPySpace (c : Char) : Bool :=
  c == ' ' || c == '\t' || c == '\n' || c == '\r' || c == '\x0b' || c == '\x0c'

/-- Model of the second cleaning step of `clean_str` (the regex substitution
of whitespace runs): replace each maximal run of whitespace by a single
hyphen. -/
def collapseWs : List Char → List Char
  | [] => []
  | [c] => if isPySpace c then ['-'] else [c]
  | c1 :: c2 :: rest =>
    if isPySpace c1 then
      (if isPySpace c2 then collapseWs (c2 :: rest) else '-' :: collapseWs (c2 :: rest))
    else c1 :: collapseWs (c2 :: rest)

/-- Model of `clean_str` from `generate_test_id`: drop every character
outside word characters, whitespace and hyphen, then collapse whitespace
runs to single hyphens. -/
def clean_str (s : List Char) : List Char :=
  collapseWs (s.filter (fun c => isPyWordChar c || isPySpace c || c == '-'))

/-- Model of `generate_test_id` (src/app.py lines 175-211): assemble the test ID from
the identifying fields; weights truncated with `int(...)`, COAL and B2O
formatted with `:.3f`. -/
def generate_test_id (date : List Char) (distance_m : ℤ)
    (calibre rifle case_brand bullet_brand bullet_model : List Char)
    (bullet_weight : ℚ) (powder_brand powder_model : List Char)
    (powder_charge : ℚ) (coal b2o : ℚ)
    (primer_brand primer_model : List Char) : List Char :=
  date ++ "__".data ++ intToChars distance_m ++ "m_".data
    ++ clean_str calibre ++ "_".data ++ clean_str rifle ++ "_".data
    ++ clean_str case_brand ++ "_".data ++ clean_str bullet_brand ++ "_".data
    ++ clean_str bullet_model ++ "_".data
    ++ intToChars (pyTrunc bullet_weight) ++ "gr_".data
    ++ clean_str powder_brand ++ "_".data ++ clean_str powder_model ++ "_".data
    ++ intToChars (pyTrunc powder_charge) ++ "gr_".data
    ++ formatFixed3 coal ++ "in_".data ++ formatFixed3 b2o ++ "in_".data
    ++ clean_str primer_brand ++ "_".data ++ clean_str primer_model

/-- The 14-component tuple returned by `parse_test_id`. -/
structure ParsedId where
  date_part : List Char
  distance : List Char
  calibre : List Char
  rifle : List Char
  case_brand : List Char
  bullet_brand : List Char
  bullet_model : List Char
  bullet_weight : List Char
  powder_brand : List Char
  powder_model : List Char
  charge : List Char
  coal : List Char
  primer_brand : List Char
  primer_model : List Char
deriving DecidableEq

/-- The all-empty tuple `("", ..., "")` returned on every failure path. -/
def emptyParsed : ParsedId :=
  ⟨[], [], [], [], [], [], [], [], [], [], [], [], [], []⟩

/-- Test whether the B2O token ends with the unit suffix in (Python
endswith). -/
def endsWithIn (cs : List Char) : Bool :=
  match cs.reverse with
  | 'n' :: 'i' :: _ => true
  | _ => false

/-- Drop the last two characters of the token (the Python slice to -2). -/
def dropEnd2 (cs : List Char) : List Char := (cs.reverse.drop 2).reverse

/-- Model of `parse_test_id` (src/app.py lines 95-172).  Faithful to the source,
including its defect: in the `≥ 14` token branch the statement
`data["ammo"]["b2o_in"] = float(b2o)` refers to a name `data` that is not
defined anywhere in scope, so whenever `float(b2o)` succeeds the statement
raises `NameError`, which the enclosing `except Exception` handler turns into
the all-empty tuple.  (When `float(b2o)` raises `ValueError` first, that is
caught by the inner pass handler and parsing proceeds.) -/
def parse_test_id (test_id : List Char) : ParsedId :=
  match pySplit ['_', '_'] test_id with
  | [date_part, rest] =>
    let parts := pySplit ['_'] rest
    if 14 ≤ parts.length then
      let b2o0 := parts.getD 11 []
      let b2o := if endsWithIn b2o0 then dropEnd2 b2o0 else b2o0
      if (pyFloat b2o).isSome then emptyParsed
      else
        { date_part := date_part
          distance := parts.getD 0 []
          calibre := parts.getD 1 []
          rifle := parts.getD 2 []
          case_brand := parts.getD 3 []
          bullet_brand := parts.getD 4 []
          bullet_model := parts.getD 5 []
          bullet_weight := parts.getD 6 []
          powder_brand := parts.getD 7 []
          powder_model := parts.getD 8 []
          charge := parts.getD 9 []
          coal := parts.getD 10 []
          primer_brand := parts.getD 12 []
          primer_model := parts.getD 13 [] }
    else if parts.length < 9 then emptyParsed
    else
      { date_part := date_part
        distance := parts.getD 0 []
        calibre := parts.getD 1 []
        rifle := parts.getD 2 []
        case_brand := []
        bullet_brand := []
        bullet_model := parts.getD 3 []
        bullet_weight := parts.getD 4 []
        powder_brand := []
        powder_model := parts.getD 5 []
        charge := parts.getD 6 []
        coal := parts.getD 7 []
        primer_brand := []
        primer_model := parts.getD 8 [] }
  | _ => emptyParsed

/-! ### The record schema (src/app.py `create_empty_test_data`) -/

structure PlatformData where
  calibre : List Char
  rifle : List Char
  barrel_length_in : ℚ
  twist_rate : List Char
deriving DecidableEq

structure CaseData where
  brand : List Char
  lot : List Char
  neck_turned : List Char
  brass_sizing : List Char
  bushing_size : ℚ
  shoulder_bump : ℚ
deriving DecidableEq

structure BulletData where
  brand : List Char
  model : List Char
  weight_gr : ℚ
  lot : List Char
deriving DecidableEq

structure PowderData where
  brand : List Char
  model : List Char
  charge_gr : ℚ
  lot : List Char
deriving DecidableEq

structure PrimerData where
  brand : List Char
  model : List Char
  lot : List Char
deriving DecidableEq

structure AmmoData where
  case : CaseData
  bullet : BulletData
  powder : PowderData
  primer : PrimerData
  coal_in : ℚ
  b2o_in : ℚ
deriving DecidableEq

structure EnvironmentData where
  temperature_c : ℚ
  humidity_percent : ℤ
  pressure_hpa : ℤ
  wind_speed_mps : ℚ
  wind_dir_deg : ℤ
  weather : List Char
deriving DecidableEq

structure GroupData where
  group_es_mm : ℚ
  group_es_moa : ℚ
  group_es_x_mm : ℚ
  group_es_y_mm : ℚ
  mean_radius_mm : ℚ
  poi_x_mm : ℚ
  poi_y_mm : ℚ
  shots : ℤ
deriving DecidableEq

structure ChronoData where
  avg_velocity_fps : ℚ
  sd_fps : ℚ
  es_fps : ℚ
deriving DecidableEq

structure FilesData where
  chrono_csv : List Char
  target_photo : List Char
deriving DecidableEq

structure TestData where
  test_id : List Char
  date : List Char
  distance_m : ℤ
  platform : PlatformData
  ammo : AmmoData
  environment : EnvironmentData
  group : GroupData
  chrono : ChronoData
  files : FilesData
  notes : List Char
deriving DecidableEq

/-- Model of `create_empty_test_data` (src/app.py lines 9-92); `today` stands for
`datetime.date.today().isoformat()`. -/
def create_empty_test_data (today : List Char) : TestData :=
  { test_id := []
    date := today
    distance_m := 100
    platform :=
      { calibre := [], rifle := [], barrel_length_in := 0, twist_rate := [] }
    ammo :=
      { case :=
          { brand := [], lot := [], neck_turned := "No".data,
            brass_sizing := "Full".data, bushing_size := 0, shoulder_bump := 0 }
        bullet := { brand := [], model := [], weight_gr := 0, lot := [] }
        powder := { brand := [], model := [], charge_gr := 0, lot := [] }
        primer := { brand := [], model := [], lot := [] }
        coal_in := 0
        b2o_in := 0 }
    environment :=
      { temperature_c := 0, humidity_percent := 0, pressure_hpa := 0,
        wind_speed_mps := 0, wind_dir_deg := 0, weather := "Clear".data }
    group :=
      { group_es_mm := 0, group_es_moa := 0, group_es_x_mm := 0,
        group_es_y_mm := 0, mean_radius_mm := 0, poi_x_mm := 0,
        poi_y_mm := 0, shots := 5 }
    chrono := { avg_velocity_fps := 0, sd_fps := 0, es_fps := 0 }
    files := { chrono_csv := "chrono.csv".data, target_photo := "target.jpg".data }
    notes := [] }

/-- The prefill branch of `load_test_data` (src/app.py lines 224-292): the
behaviour when the store has no (truthy) data for `test_id`, so an empty
record is created and fields are prefilled from `parse_test_id`.  Each
numeric conversion sits in a `try/except` that keeps the default on failure. -/
def loadTestDataFresh (test_id today : List Char) : TestData :=
  if test_id = [] then create_empty_test_data today
  else
    let p := parse_test_id test_id
    let d0 := create_empty_test_data today
    let d1 := { d0 with test_id := test_id }
    let d2 :=
      if p.date_part ≠ [] ∧ p.date_part.length = 8 then
        { d1 with
            date := p.date_part.take 4 ++ '-' :: (p.date_part.drop 4).take 2
              ++ '-' :: (p.date_part.drop 6).take 2 }
      else d1
    let d3 :=
      match (if p.distance ≠ [] then pyIntParse (pyRstripSet p.distance ['m']) else none) with
      | some n => { d2 with distance_m := n }
      | none => d2
    let d4 := { d3 with platform.calibre := p.calibre, platform.rifle := p.rifle }
    let d5 := { d4 with ammo.case.brand := p.case_brand }
    let d6 :=
      { d5 with ammo.bullet.brand := p.bullet_brand, ammo.bullet.model := p.bullet_model }
    let d7 :=
      match pyFloat (pyRstripSet p.bullet_weight ['g', 'r']) with
      | some q => { d6 with ammo.bullet.weight_gr := q }
      | none => d6
    let d8 :=
      { d7 with ammo.powder.brand := p.powder_brand, ammo.powder.model := p.powder_model }
    let d9 :=
      match pyFloat (pyRstripSet p.charge ['g', 'r']) with
      | some q => { d8 with ammo.powder.charge_gr := q }
      | none => d8
    let d10 :=
      match pyFloat (pyRstripSet p.coal ['i', 'n']) with
      | some q => { d9 with ammo.coal_in := q }
      | none => d9
    { d10 with ammo.primer.brand := p.primer_brand, ammo.primer.model := p.primer_model }

/-! ### YAML values and documents (src/utils.py) -/

/-- A Python value as stored in a test record: int, float, str or None. -/
inductive YVal where
  | vint (n : ℤ)
  | vfloat (q : ℚ)
  | vstr (s : List Char)
  | vnone
deriving DecidableEq

/-- A Python object handed to `yaml.dump` / returned by `yaml.safe_load`:
a scalar or a nested string-keyed mapping (`mnil` / `mcons` spine). -/
inductive YDoc where
  | scalar (v : YVal)
  | mnil
  | mcons (k : List Char) (v : YDoc) (rest : YDoc)
deriving DecidableEq

/-- A serialized scalar node as written by `save_yaml`: an int node, a
float-tagged text node produced by the custom float representer, a string
node, or a null node. -/
inductive SVal where
  | si (n : ℤ)
  | sf (t : List Char)
  | ss (s : List Char)
  | snone
deriving DecidableEq

/-- A serialized document. -/
inductive SDoc where
  | scalar (v : SVal)
  | mnil
  | mcons (k : List Char) (v : SDoc) (rest : SDoc)
deriving DecidableEq

/-- The text clean-up of the custom float representer (src/utils.py lines
79-82): starting from the fixed three-decimal rendering, strip trailing
zeros then a trailing
dot, but only if that leaves more than the part before the dot. -/
def stripText (t : List Char) : List Char :=
  if t.contains '.' then
    let s := pyRstripSet (pyRstripSet t ['0']) ['.']
    if s ≠ t.takeWhile (fun c => c != '.') then s else t
  else t

/-- The custom float representer registered by `save_yaml` (src/utils.py
lines 76-86): a float equal to its integer truncation is emitted as an int
node; any other float is emitted as float-tagged text. -/
def serVal : YVal → SVal
  | .vint n => .si n
  | .vstr s => .ss s
  | .vnone => .snone
  | .vfloat q => if qIsInt q then .si (pyTrunc q) else .sf (stripText (formatFixed3 q))

/-- Model of `yaml.safe_load` reading back one scalar node: int nodes load as ints,
string nodes as strings; a float-tagged text node is re-parsed as a float
literal (falling back to the raw string if it does not parse, which never
happens for texts produced by the representer). -/
def loadVal : SVal → YVal
  | .si n => .vint n
  | .ss s => .vstr s
  | .snone => .vnone
  | .sf t =>
    match pyFloat t with
    | some q => .vfloat q
    | none => .vstr t

/-- Model of `yaml.dump` of a record under the registered representer. -/
def serDoc : YDoc → SDoc
  | .scalar v => .scalar (serVal v)
  | .mnil => .mnil
  | .mcons k v r => .mcons k (serDoc v) (serDoc r)

/-- Model of `yaml.safe_load` of a stored document. -/
def loadDoc : SDoc → YDoc
  | .scalar v => .scalar (loadVal v)
  | .mnil => .mnil
  | .mcons k v r => .mcons k (loadDoc v) (loadDoc r)

/-- Python truthiness of a scalar. -/
def yValTruthy : YVal → Bool
  | .vint n => n != 0
  | .vfloat q => q.num != 0
  | .vstr s => !s.isEmpty
  | .vnone => false

/-- Python truthiness of a loaded document (`if data:`): a mapping is truthy
iff nonempty. -/
def yTruthy : YDoc → Bool
  | .scalar v => yValTruthy v
  | .mnil => false
  | .mcons _ _ _ => true

/-! ### The record store (src/utils.py) -/

/-- State of one test folder `tests/<id>`: no `group.yaml` file, a file whose
content `yaml.safe_load` rejects, or a file parsed to a document. -/
inductive FileContent where
  | absent
  | malformed
  | parsed (d : SDoc)
deriving DecidableEq

/-- The `tests` directory: one entry per test folder, in enumeration order. -/
abbrev Store := List (List Char × FileContent)

/-- Association lookup, first match wins (a fresh save is prepended). -/
def alookup (k : List Char) : Store → Option FileContent
  | [] => none
  | (k', c) :: rest => if k' = k then some c else alookup k rest

/-- Model of `get_test_folders` (src/utils.py lines 92-105): list the test folders in
enumeration order. -/
def get_test_folders (st : Store) : List (List Char) := st.map Prod.fst

/-- Model of `get_test_data` (src/utils.py lines 136-147), that is `load_yaml` on
`tests/<k>/group.yaml`: a missing folder or file raises `FileNotFoundError`,
which is caught and turned into `{}`; a falsy parse (`None`, `{}`) is turned
into `{}`; malformed YAML raises `yaml.YAMLError`, which is *not* caught and
escapes to the caller (modelled as `.error ()`). -/
def get_test_data (k : List Char) (st : Store) : Except Unit YDoc :=
  match alookup k st with
  | none => .ok .mnil
  | some .absent => .ok .mnil
  | some .malformed => .error ()
  | some (.parsed sd) =>
    let d := loadDoc sd
    .ok (if yTruthy d then d else .mnil)

/-- Model of `save_test_data` (src/utils.py lines 150-160): create the folder and
overwrite `tests/<k>/group.yaml` with the dump of `d`. -/
def save_test_data (k : List Char) (d : YDoc) (st : Store) : Store :=
  (k, .parsed (serDoc d)) :: st

/-! ### The bulk loader / flattener (src/analysis.py) -/

/-- One flattened row: column name to value, in the source insertion order. -/
abbrev FlatRow := List (List Char × YDoc)

deriving instance DecidableEq for Except

/-- Lookup of a key in a mapping document. -/
def YDoc.lookupKey : YDoc → List Char → Option YDoc
  | .mcons k' v r, k => if k' = k then some v else r.lookupKey k
  | _, _ => none

/-- Python `d.get(k, default)`: `AttributeError` (modelled `.error ()`) when
`d` is not a mapping. -/
def pyGet (d : YDoc) (k : List Char) (dflt : YDoc) : Except Unit YDoc :=
  match d with
  | .scalar _ => .error ()
  | .mnil => .ok dflt
  | .mcons k' v r => .ok (((YDoc.mcons k' v r).lookupKey k).getD dflt)

/-- The flattening of one record (src/analysis.py lines 24-91): every leaf is
fetched with defaulting `get` chains; any `get` on a non-mapping raises and
the row is abandoned. -/
def flatten_test_data (tid : List Char) (data : YDoc) : Except Unit FlatRow := do
  let sD : YDoc := .scalar (.vstr [])
  let iD : YDoc := .scalar (.vint 0)
  let fD : YDoc := .scalar (.vfloat 0)
  let date ← pyGet data "date".data sD
  let distance ← pyGet data "distance_m".data iD
  let platform ← pyGet data "platform".data .mnil
  let calibre ← pyGet platform "calibre".data sD
  let rifle ← pyGet platform "rifle".data sD
  let barrel ← pyGet platform "barrel_length_in".data fD
  let twist ← pyGet platform "twist_rate".data sD
  let ammo ← pyGet data "ammo".data .mnil
  let caseD ← pyGet ammo "case".data .mnil
  let case_brand ← pyGet caseD "brand".data sD
  let case_lot ← pyGet caseD "lot".data sD
  let neck_turned ← pyGet caseD "neck_turned".data sD
  let brass_sizing ← pyGet caseD "brass_sizing".data sD
  let bushing_size ← pyGet caseD "bushing_size".data fD
  let shoulder_bump ← pyGet caseD "shoulder_bump".data fD
  let bulletD ← pyGet ammo "bullet".data .mnil
  let bullet_brand ← pyGet bulletD "brand".data sD
  let bullet_model ← pyGet bulletD "model".data sD
  let bullet_weight ← pyGet bulletD "weight_gr".data fD
  let bullet_lot ← pyGet bulletD "lot".data sD
  let powderD ← pyGet ammo "powder".data .mnil
  let powder_brand ← pyGet powderD "brand".data sD
  let powder_model ← pyGet powderD "model".data sD
  let powder_charge ← pyGet powderD "charge_gr".data fD
  let powder_lot ← pyGet powderD "lot".data sD
  let primerD ← pyGet ammo "primer".data .mnil
  let primer_brand ← pyGet primerD "brand".data sD
  let primer_model ← pyGet primerD "model".data sD
  let primer_lot ← pyGet primerD "lot".data sD
  let coal ← pyGet ammo "coal_in".data fD
  let b2o ← pyGet ammo "b2o_in".data fD
  let env ← pyGet data "environment".data .mnil
  let temperature ← pyGet env "temperature_c".data fD
  let humidity ← pyGet env "humidity_percent".data iD
  let pressure ← pyGet env "pressure_hpa".data iD
  let wind_speed ← pyGet env "wind_speed_mps".data fD
  let wind_dir ← pyGet env "wind_dir_deg".data iD
  let weather ← pyGet env "weather".data sD
  let groupD ← pyGet data "group".data .mnil
  let shots ← pyGet groupD "shots".data iD
  let ges ← pyGet groupD "group_es_mm".data fD
  let gesmoa ← pyGet groupD "group_es_moa".data fD
  let gesx ← pyGet groupD "group_es_x_mm".data fD
  let gesy ← pyGet groupD "group_es_y_mm".data fD
  let meanr ← pyGet groupD "mean_radius_mm".data fD
  let poix ← pyGet groupD "poi_x_mm".data fD
  let poiy ← pyGet groupD "poi_y_mm".data fD
  let chronoD ← pyGet data "chrono".data .mnil
  let avgv ← pyGet chronoD "avg_velocity_fps".data fD
  let sd ← pyGet chronoD "sd_fps".data fD
  let es ← pyGet chronoD "es_fps".data fD
  let notes ← pyGet data "notes".data sD
  return [("test_id".data, .scalar (.vstr tid)), ("date".data, date),
    ("distance_m".data, distance), ("calibre".data, calibre),
    ("rifle".data, rifle), ("barrel_length_in".data, barrel),
    ("twist_rate".data, twist), ("case_brand".data, case_brand),
    ("case_lot".data, case_lot), ("neck_turned".data, neck_turned),
    ("brass_sizing".data, brass_sizing), ("bushing_size".data, bushing_size),
    ("shoulder_bump".data, shoulder_bump), ("bullet_brand".data, bullet_brand),
    ("bullet_model".data, bullet_model), ("bullet_weight_gr".data, bullet_weight),
    ("bullet_lot".data, bullet_lot), ("powder_brand".data, powder_brand),
    ("powder_model".data, powder_model), ("powder_charge_gr".data, powder_charge),
    ("powder_lot".data, powder_lot), ("primer_brand".data, primer_brand),
    ("primer_model".data, primer_model), ("primer_lot".data, primer_lot),
    ("coal_in".data, coal), ("b2o_in".data, b2o),
    ("temperature_c".data, temperature), ("humidity_percent".data, humidity),
    ("pressure_hpa".data, pressure), ("wind_speed_mps".data, wind_speed),
    ("wind_dir_deg".data, wind_dir), ("weather".data, weather),
    ("shots".data, shots), ("group_es_mm".data, ges),
    ("group_es_moa".data, gesmoa), ("group_es_x_mm".data, gesx),
    ("group_es_y_mm".data, gesy), ("mean_radius_mm".data, meanr),
    ("poi_x_mm".data, poix), ("poi_y_mm".data, poiy),
    ("avg_velocity_fps".data, avgv), ("sd_fps".data, sd),
    ("es_fps".data, es), ("notes".data, notes)]

/-- One iteration step plus recursion of `load_all_test_data`
(src/analysis.py lines 10-95): for each folder, load inside `try`; a raising
load (or a raising flatten) is logged and skipped; falsy data (`if data:`)
is skipped silently; otherwise the flattened row is appended.  Returns
(rows, logged keys), each in enumeration order. -/
def loadAllGo (st : Store) : List (List Char) → List FlatRow × List (List Char)
  | [] => ([], [])
  | k :: ks =>
    let r := loadAllGo st ks
    match get_test_data k st with
    | .error _ => (r.1, k :: r.2)
    | .ok d =>
      if yTruthy d then
        match flatten_test_data k d with
        | .ok row => (row :: r.1, r.2)
        | .error _ => (r.1, k :: r.2)
      else r

/-- Model of `load_all_test_data` (src/analysis.py lines 10-95). -/
def load_all_test_data (st : Store) : List FlatRow × List (List Char) :=
  loadAllGo st (get_test_folders st)

/-! ### MOA computation (src/editor.py `calculate_moa`) -/

/-- Python `round(x, 2)`: round half-even to two decimal digits. -/
def pyRound2 (q : ℚ) : ℚ := (rheMul 100 q : ℚ) / 100

/-- Model of `calculate_moa` (src/editor.py lines 90-113). -/
def calculate_moa (group_size_mm distance_m : ℚ) : ℚ :=
  if distance_m ≤ 0 ∨ group_size_mm ≤ 0 then 0
  else
    let group_size_inches := group_size_mm / (25.4 : ℚ)
    let distance_yards := distance_m / (0.9144 : ℚ)
    pyRound2 (group_size_inches / distance_yards * 100)

/-- The flattened row of a key whose load and flatten succeed (junk row
otherwise; only used under `goodKeyB`). -/
def rowOfKey (st : Store) (k : List Char) : FlatRow :=
  match get_test_data k st with
  | .error _ => []
  | .ok d =>
    match flatten_test_data k d with
    | .ok row => row
    | .error _ => []

/-- The per-key load of the bulk loader succeeds and yields a truthy record
whose flattening succeeds. -/
def goodKeyB (st : Store) (k : List Char) : Bool :=
  match get_test_data k st with
  | .error _ => false
  | .ok d =>
    yTruthy d &&
      (match flatten_test_data k d with
       | .ok _ => true
       | .error _ => false)

/-- The per-key processing of the bulk loader raises (either the load itself
or the flattening of a truthy record). -/
def throwsKeyB (st : Store) (k : List Char) : Bool :=
  match get_test_data k st with
  | .error _ => true
  | .ok d =>
    yTruthy d &&
      (match flatten_test_data k d with
       | .ok _ => false
       | .error _ => true)

/-- The per-key load yields falsy data (not found / empty record). -/
def notFoundKeyB (st : Store) (k : List Char) : Bool :=
  match get_test_data k st with
  | .error _ => false
  | .ok d => !yTruthy d

/-! ### Value equivalence (Python `==`) and the three-decimal predicate -/

/-- Python `==` on scalars: `int` and `float` compare numerically
(`(n : ℚ) = q` iff `q.den = 1 ∧ q.num = n`), strings compare as strings. -/
def vEquivB : YVal → YVal → Bool
  | .vint n, .vint m => n == m
  | .vint n, .vfloat q => q.den == 1 && q.num == n
  | .vfloat q, .vint n => q.den == 1 && q.num == n
  | .vfloat q, .vfloat q' => q == q'
  | .vstr s, .vstr s' => s == s'
  | .vnone, .vnone => true
  | _, _ => false

/-- Python `==` on record documents, keys and values compared pointwise. -/
def yEquivB : YDoc → YDoc → Bool
  | .scalar v, .scalar w => vEquivB v w
  | .mnil, .mnil => true
  | .mcons k v r, .mcons k' v' r' => k == k' && yEquivB v v' && yEquivB r r'
  | _, _ => false

/-- The scalar has at most three decimal digits (`q * 1000` is an integer,
phrased on the reduced denominator). -/
def threeDecV : YVal → Bool
  | .vfloat q => 1000 % q.den == 0
  | _ => true

/-- Every float scalar of the document has at most three decimal digits. -/
def threeDecDoc : YDoc → Bool
  | .scalar v => threeDecV v
  | .mnil => true
  | .mcons _ v r => threeDecDoc v && threeDecDoc r

/-- The document is a mapping (a Python dict), as every saved record is. -/
def isMapDoc : YDoc → Bool
  | .scalar _ => false
  | _ => true

/-! ### Lemmas about `pySplit` -/

theorem pySplitFirstAux_some_length {c0 : Char} {sr : List Char} :
    ∀ (s acc a b : List Char),
      pySplitFirstAux (c0 :: sr) s acc = some (a, b) → b.length < s.length := by
  intro s
  induction s with
  | nil => intro acc a b h; simp [pySplitFirstAux] at h
  | cons c rest ih =>
    intro acc a b h
    by_cases hp : (c0 :: sr).isPrefixOf (c :: rest)
    · simp only [pySplitFirstAux, if_pos hp, Option.some.injEq, Prod.mk.injEq] at h
      obtain ⟨_, hb⟩ := h
      subst hb
      simp only [List.drop_succ_cons, List.length_drop, List.length_cons]
      omega
    · simp only [pySplitFirstAux, if_neg hp] at h
      have := ih (c :: acc) a b h
      simp only [List.length_cons]
      omega

theorem pySplitN_fuel {c0 : Char} {sr : List Char} :
    ∀ (f1 f2 : Nat) (s : List Char), s.length < f1 → s.length < f2 →
      pySplitN (c0 :: sr) f1 s = pySplitN (c0 :: sr) f2 s := by
  intro f1
  induction f1 with
  | zero => intro f2 s h1 _; omega
  | succ f ih =>
    intro f2 s h1 h2
    cases f2 with
    | zero => omega
    | succ f2' =>
      simp only [pySplitN]
      cases hsp : pySplitFirstAux (c0 :: sr) s [] with
      | none => rfl
      | some ab =>
        obtain ⟨a, b⟩ := ab
        have hb := pySplitFirstAux_some_length s [] a b hsp
        show a :: pySplitN (c0 :: sr) f b = a :: pySplitN (c0 :: sr) f2' b
        rw [ih f2' b (by omega) (by omega)]

theorem pySplit_eq_single {c0 : Char} {sr s : List Char}
    (h : pySplitFirstAux (c0 :: sr) s [] = none) :
    pySplit (c0 :: sr) s = [s] := by
  simp [pySplit, pySplitN, h]

theorem pySplit_eq_cons {c0 : Char} {sr s a b : List Char}
    (h : pySplitFirstAux (c0 :: sr) s [] = some (a, b)) :
    pySplit (c0 :: sr) s = a :: pySplit (c0 :: sr) b := by
  have hb := pySplitFirstAux_some_length s [] a b h
  show pySplitN (c0 :: sr) (s.length + 1) s = a :: pySplitN (c0 :: sr) (b.length + 1) b
  have h1 : pySplitN (c0 :: sr) (s.length + 1) s = a :: pySplitN (c0 :: sr) s.length b := by
    simp [pySplitN, h]
  rw [h1, pySplitN_fuel s.length (b.length + 1) b hb (by omega)]

theorem pySplit_ne_nil (sep s : List Char) : pySplit sep s ≠ [] := by
  match sep with
  | [] => simp [pySplit]
  | c0 :: sr =>
    simp only [pySplit, pySplitN]
    cases h : pySplitFirstAux (c0 :: sr) s [] with
    | none => simp
    | some ab => simp

theorem pySplit_singleton {c0 : Char} {sr s r : List Char}
    (h : pySplit (c0 :: sr) s = [r]) : r = s := by
  cases hf : pySplitFirstAux (c0 :: sr) s [] with
  | none =>
    rw [pySplit_eq_single hf] at h
    simp only [List.cons.injEq, and_true] at h
    exact h.symm
  | some ab =>
    obtain ⟨a, b⟩ := ab
    rw [pySplit_eq_cons hf] at h
    simp only [List.cons.injEq] at h
    exact absurd h.2 (pySplit_ne_nil _ _)

/-! ### Helper lemmas about the decode/prefill pipeline -/

theorem loadTestDataFresh_b2o (s today : List Char) :
    (loadTestDataFresh s today).ammo.b2o_in = 0 := by
  simp only [loadTestDataFresh]
  split
  · rfl
  · repeat' (first | rfl | split)

/-! ### Claim theorems -/

/-- Claim C4: encoding the specific field tuple of the spec (with
`bullet_weight_gr = 75.0`, `powder_charge_gr = 23.5 = mkRat 235 10`,
`coal_in = 2.26 = mkRat 226 100`, `b2o_in = 1.8 = mkRat 18 10`) produces
exactly the expected identifier string: weights truncated to integers, COAL
and B2O with exactly three decimals, spaces collapsed to hyphens. -/
theorem claim_C4_encode_concrete :
    generate_test_id "2025-06-01".data 100 "223 Rem".data "Tikka T3x".data
      "Lapua".data "Hornady".data "ELD-M".data (75 : ℚ) "ADI".data "2208".data
      (mkRat 235 10) (mkRat 226 100) (mkRat 18 10) "CCI".data "BR4".data =
    "2025-06-01__100m_223-Rem_Tikka-T3x_Lapua_Hornady_ELD-M_75gr_ADI_2208_23gr_2.260in_1.800in_CCI_BR4".data := by
  decide

/-- Claim C1 (code bug): decoding the identifier produced by the current
encoder from the spec's example tuple does not reproduce the identifying
fields; it yields the all-empty tuple, because the `≥ 14` token branch of
`parse_test_id` always evaluates `float(b2o)` successfully on an encoded B2O
token (`"1.800"`) and then hits the `NameError` on the undefined name `data`,
so the blanket handler returns empties. -/
theorem claim_C1_roundtrip_bug_eval :
    parse_test_id (generate_test_id "2025-06-01".data 100 "223 Rem".data
      "Tikka T3x".data "Lapua".data "Hornady".data "ELD-M".data (75 : ℚ)
      "ADI".data "2208".data (mkRat 235 10) (mkRat 226 100) (mkRat 18 10)
      "CCI".data "BR4".data) = emptyParsed ∧
    emptyParsed.date_part ≠ "2025-06-01".data := by
  constructor
  · decide
  · decide

/-- Claim C2 (code bug): on a current-format identifier whose part after the
double-underscore split has exactly 14 tokens, `parse_test_id` returns the
all-empty tuple instead of the positional field values, because after
stripping the `in` suffix the B2O token parses as a float and the assignment
to the undefined name `data` raises `NameError`. -/
theorem claim_C2_fourteen_token_bug_eval :
    (pySplit ['_'] ((pySplit ['_', '_'] "2025-06-01__100m_223-Rem_Tikka-T3x_Lapua_Hornady_ELD-M_75gr_ADI_2208_23gr_2.260in_1.800in_CCI_BR4".data).getD 1 [])).length = 14 ∧
    parse_test_id "2025-06-01__100m_223-Rem_Tikka-T3x_Lapua_Hornady_ELD-M_75gr_ADI_2208_23gr_2.260in_1.800in_CCI_BR4".data = emptyParsed ∧
    emptyParsed.distance = [] := by
  refine ⟨by decide, by decide, rfl⟩

/-- Claim C6: decode is total and fail-soft.  Whenever splitting on the first
occurrence of the double underscore does not yield a (date, rest) pair, or
the rest splits into fewer than 9 underscore tokens, `parse_test_id` returns
the all-empty tuple (and, being a total function, it never raises). -/
theorem claim_C6_decode_fail_soft (s : List Char)
    (h : pySplitFirstAux ['_', '_'] s [] = none ∨
      ∃ a b, pySplitFirstAux ['_', '_'] s [] = some (a, b) ∧
        (pySplit ['_'] b).length < 9) :
    parse_test_id s = emptyParsed := by
  rcases h with h | ⟨a, b, hf, hlen⟩
  · unfold parse_test_id
    rw [pySplit_eq_single h]
  · have hsplit := pySplit_eq_cons hf
    rcases hc : pySplit ['_', '_'] b with _ | ⟨c, cs⟩
    · exact absurd hc (pySplit_ne_nil _ _)
    · rcases cs with _ | ⟨x, cs'⟩
      · have hcb : c = b := pySplit_singleton hc
        subst hcb
        rw [hc] at hsplit
        simp only [parse_test_id, hsplit]
        split_ifs <;> first | rfl | omega
      · simp only [parse_test_id, hsplit, hc]

/-- Witness for C6 at concrete malformed identifiers. -/
theorem claim_C6_witness :
    pySplitFirstAux ['_', '_'] "hello".data [] = none ∧
    parse_test_id "hello".data = emptyParsed ∧
    parse_test_id "2024-01-01__300m_308".data = emptyParsed :=
  ⟨by decide,
   claim_C6_decode_fail_soft "hello".data (Or.inl (by decide)),
   claim_C6_decode_fail_soft "2024-01-01__300m_308".data
     (Or.inr ⟨"2024-01-01".data, "300m_308".data, by decide, by decide⟩)⟩

/-- Claim C5: on a legacy identifier whose part after the double-underscore
split has between 9 and 13 underscore tokens, decode maps tokens positionally
to distance, calibre, rifle, bullet model, bullet weight, powder model,
charge, COAL, primer model, decodes all four brand fields to the empty
string, and the prefilled record keeps `b2o_in` at its default `0.0`. -/
theorem claim_C5_legacy_decode (s a b today : List Char)
    (hs : pySplit ['_', '_'] s = [a, b])
    (h9 : 9 ≤ (pySplit ['_'] b).length)
    (h13 : (pySplit ['_'] b).length ≤ 13) :
    parse_test_id s =
      { date_part := a
        distance := (pySplit ['_'] b).getD 0 []
        calibre := (pySplit ['_'] b).getD 1 []
        rifle := (pySplit ['_'] b).getD 2 []
        case_brand := []
        bullet_brand := []
        bullet_model := (pySplit ['_'] b).getD 3 []
        bullet_weight := (pySplit ['_'] b).getD 4 []
        powder_brand := []
        powder_model := (pySplit ['_'] b).getD 5 []
        charge := (pySplit ['_'] b).getD 6 []
        coal := (pySplit ['_'] b).getD 7 []
        primer_brand := []
        primer_model := (pySplit ['_'] b).getD 8 [] } ∧
    (loadTestDataFresh s today).ammo.b2o_in = 0 := by
  refine ⟨?_, loadTestDataFresh_b2o s today⟩
  simp only [parse_test_id, hs]
  split_ifs <;> first | rfl | omega

/-- Witness for C5 at a concrete 9-token legacy identifier. -/
theorem claim_C5_witness :
    pySplit ['_', '_'] "2024-01-01__300m_308_T3_ELDM_75gr_2208_23gr_2.260in_BR4".data =
      ["2024-01-01".data, "300m_308_T3_ELDM_75gr_2208_23gr_2.260in_BR4".data] ∧
    9 ≤ (pySplit ['_'] "300m_308_T3_ELDM_75gr_2208_23gr_2.260in_BR4".data).length ∧
    parse_test_id "2024-01-01__300m_308_T3_ELDM_75gr_2208_23gr_2.260in_BR4".data =
      { date_part := "2024-01-01".data
        distance := (pySplit ['_'] "300m_308_T3_ELDM_75gr_2208_23gr_2.260in_BR4".data).getD 0 []
        calibre := (pySplit ['_'] "300m_308_T3_ELDM_75gr_2208_23gr_2.260in_BR4".data).getD 1 []
        rifle := (pySplit ['_'] "300m_308_T3_ELDM_75gr_2208_23gr_2.260in_BR4".data).getD 2 []
        case_brand := []
        bullet_brand := []
        bullet_model := (pySplit ['_'] "300m_308_T3_ELDM_75gr_2208_23gr_2.260in_BR4".data).getD 3 []
        bullet_weight := (pySplit ['_'] "300m_308_T3_ELDM_75gr_2208_23gr_2.260in_BR4".data).getD 4 []
        powder_brand := []
        powder_model := (pySplit ['_'] "300m_308_T3_ELDM_75gr_2208_23gr_2.260in_BR4".data).getD 5 []
        charge := (pySplit ['_'] "300m_308_T3_ELDM_75gr_2208_23gr_2.260in_BR4".data).getD 6 []
        coal := (pySplit ['_'] "300m_308_T3_ELDM_75gr_2208_23gr_2.260in_BR4".data).getD 7 []
        primer_model := (pySplit ['_'] "300m_308_T3_ELDM_75gr_2208_23gr_2.260in_BR4".data).getD 8 []
        primer_brand := [] } ∧
    (loadTestDataFresh "2024-01-01__300m_308_T3_ELDM_75gr_2208_23gr_2.260in_BR4".data "2026-10-12".data).ammo.b2o_in = 0 := by
  refine ⟨by decide, by decide, ?_⟩
  exact claim_C5_legacy_decode _ _ _ "2026-10-12".data (by decide) (by decide) (by decide)

/-- Claim C7 counterexample: a stored record whose persisted file content is
malformed makes `get_test_data` raise (propagate `yaml.YAMLError`) instead of
failing soft to an empty mapping. -/
theorem claim_C7_counterexample :
    get_test_data "t".data [("t".data, FileContent.malformed)] = .error () := by
  decide

/-- Claim C7 amended: loading a never-saved test ID returns an empty mapping
without raising, but a key whose persisted content is malformed raises
(`load_yaml` catches only `FileNotFoundError`). -/
theorem claim_C7_load_amended (st : Store) (k : List Char) :
    (alookup k st = none → get_test_data k st = .ok .mnil) ∧
    (alookup k st = some .malformed → get_test_data k st = .error ()) := by
  constructor <;> intro h <;> simp [get_test_data, h]

/-- Witness for C7 at a concrete empty store and a concrete malformed store. -/
theorem claim_C7_witness :
    (alookup "x".data ([] : Store) = none ∧ get_test_data "x".data [] = .ok .mnil) ∧
    (alookup "t".data [("t".data, FileContent.malformed)] = some .malformed ∧
      get_test_data "t".data [("t".data, FileContent.malformed)] = .error ()) :=
  ⟨⟨rfl, (claim_C7_load_amended [] "x".data).1 rfl⟩,
   ⟨rfl, (claim_C7_load_amended [("t".data, FileContent.malformed)] "t".data).2 rfl⟩⟩

/-- Claim C9 counterexample: the defaulted empty record does not set every
numeric field other than `shots` to zero, nor every string field to empty:
`distance_m` defaults to 100, `neck_turned` to `"No"`, `brass_sizing` to
`"Full"`. -/
theorem claim_C9_counterexample :
    (create_empty_test_data "2026-10-12".data).distance_m ≠ 0 ∧
    (create_empty_test_data "2026-10-12".data).ammo.case.neck_turned ≠ [] ∧
    (create_empty_test_data "2026-10-12".data).ammo.case.brass_sizing ≠ [] := by
  refine ⟨by decide, by decide, by decide⟩

/-- Claim C9 amended: the defaulted empty instance sets `distance_m = 100`,
`shots = 5`, `neck_turned = "No"`, `brass_sizing = "Full"`,
`weather = "Clear"`, the file references to `"chrono.csv"`/`"target.jpg"`,
the date to today, every other numeric field to zero and every other string
field to empty. -/
theorem claim_C9_defaults_amended (today : List Char) :
    (create_empty_test_data today).test_id = [] ∧
    (create_empty_test_data today).date = today ∧
    (create_empty_test_data today).distance_m = 100 ∧
    (create_empty_test_data today).platform.calibre = [] ∧
    (create_empty_test_data today).platform.rifle = [] ∧
    (create_empty_test_data today).platform.barrel_length_in = 0 ∧
    (create_empty_test_data today).platform.twist_rate = [] ∧
    (create_empty_test_data today).ammo.case.brand = [] ∧
    (create_empty_test_data today).ammo.case.lot = [] ∧
    (create_empty_test_data today).ammo.case.neck_turned = "No".data ∧
    (create_empty_test_data today).ammo.case.brass_sizing = "Full".data ∧
    (create_empty_test_data today).ammo.case.bushing_size = 0 ∧
    (create_empty_test_data today).ammo.case.shoulder_bump = 0 ∧
    (create_empty_test_data today).ammo.bullet.brand = [] ∧
    (create_empty_test_data today).ammo.bullet.model = [] ∧
    (create_empty_test_data today).ammo.bullet.weight_gr = 0 ∧
    (create_empty_test_data today).ammo.bullet.lot = [] ∧
    (create_empty_test_data today).ammo.powder.brand = [] ∧
    (create_empty_test_data today).ammo.powder.model = [] ∧
    (create_empty_test_data today).ammo.powder.charge_gr = 0 ∧
    (create_empty_test_data today).ammo.powder.lot = [] ∧
    (create_empty_test_data today).ammo.primer.brand = [] ∧
    (create_empty_test_data today).ammo.primer.model = [] ∧
    (create_empty_test_data today).ammo.primer.lot = [] ∧
    (create_empty_test_data today).ammo.coal_in = 0 ∧
    (create_empty_test_data today).ammo.b2o_in = 0 ∧
    (create_empty_test_data today).environment.temperature_c = 0 ∧
    (create_empty_test_data today).environment.humidity_percent = 0 ∧
    (create_empty_test_data today).environment.pressure_hpa = 0 ∧
    (create_empty_test_data today).environment.wind_speed_mps = 0 ∧
    (create_empty_test_data today).environment.wind_dir_deg = 0 ∧
    (create_empty_test_data today).environment.weather = "Clear".data ∧
    (create_empty_test_data today).group.group_es_mm = 0 ∧
    (create_empty_test_data today).group.group_es_moa = 0 ∧
    (create_empty_test_data today).group.group_es_x_mm = 0 ∧
    (create_empty_test_data today).group.group_es_y_mm = 0 ∧
    (create_empty_test_data today).group.mean_radius_mm = 0 ∧
    (create_empty_test_data today).group.poi_x_mm = 0 ∧
    (create_empty_test_data today).group.poi_y_mm = 0 ∧
    (create_empty_test_data today).group.shots = 5 ∧
    (create_empty_test_data today).chrono.avg_velocity_fps = 0 ∧
    (create_empty_test_data today).chrono.sd_fps = 0 ∧
    (create_empty_test_data today).chrono.es_fps = 0 ∧
    (create_empty_test_data today).files.chrono_csv = "chrono.csv".data ∧
    (create_empty_test_data today).files.target_photo = "target.jpg".data ∧
    (create_empty_test_data today).notes = [] := by
  repeat' (first | exact rfl | constructor)

/-- Claim C10: the MOA computation is division-safe: it returns 0 whenever
`distance_m ≤ 0` or `group_size_mm ≤ 0`, and for strictly positive inputs it
returns `((group_size_mm / 25.4) / (distance_m / 0.9144)) * 100` rounded
half-even to two decimal digits. -/
theorem claim_C10_moa_guard (g d : ℚ) :
    ((d ≤ 0 ∨ g ≤ 0) → calculate_moa g d = 0) ∧
    (0 < d → 0 < g →
      calculate_moa g d = pyRound2 (g / (25.4 : ℚ) / (d / (0.9144 : ℚ)) * 100)) := by
  constructor
  · intro h
    unfold calculate_moa
    rw [if_pos h]
  · intro hd hg
    unfold calculate_moa
    rw [if_neg (by push_neg; exact ⟨hd, hg⟩)]

/-- Witness for C10 at `group_size_mm = 10`, `distance_m = 100` and at the
guard case `distance_m = 0`. -/
theorem claim_C10_witness :
    ((0 : ℚ) < 100) ∧ ((0 : ℚ) < 10) ∧
    calculate_moa 10 100 = pyRound2 ((10 : ℚ) / (25.4 : ℚ) / ((100 : ℚ) / (0.9144 : ℚ)) * 100) ∧
    calculate_moa 10 0 = 0 :=
  ⟨by norm_num, by norm_num,
   (claim_C10_moa_guard 10 100).2 (by norm_num) (by norm_num),
   (claim_C10_moa_guard 10 0).1 (Or.inl le_rfl)⟩

/-! ### Bulk loader lemmas and claim C8 -/

theorem loadAllGo_append (st : Store) (xs ys : List (List Char)) :
    loadAllGo st (xs ++ ys) =
      ((loadAllGo st xs).1 ++ (loadAllGo st ys).1,
       (loadAllGo st xs).2 ++ (loadAllGo st ys).2) := by
  induction xs with
  | nil => simp [loadAllGo]
  | cons k ks ih =>
    simp only [List.cons_append, loadAllGo, ih]
    cases hg : get_test_data k st with
    | error e => simp [ih]
    | ok d =>
      by_cases ht : yTruthy d
      · cases hf : flatten_test_data k d with
        | ok row => simp [ht, hf, ih]
        | error e => simp [ht, hf, ih]
      · simp [ht, ih]

theorem loadAllGo_allGood (st : Store) (ks : List (List Char))
    (h : ∀ k ∈ ks, goodKeyB st k = true) :
    loadAllGo st ks = (ks.map (rowOfKey st), []) := by
  induction ks with
  | nil => rfl
  | cons k ks ih =>
    have hk := h k (by simp)
    have hks := ih (fun k' hk' => h k' (by simp [hk']))
    simp only [loadAllGo, hks, List.map_cons]
    cases hg : get_test_data k st with
    | error e => simp [goodKeyB, hg] at hk
    | ok d =>
      simp only [goodKeyB, hg, Bool.and_eq_true] at hk
      obtain ⟨ht, hf⟩ := hk
      cases hff : flatten_test_data k d with
      | error e => rw [hff] at hf; simp at hf
      | ok row => simp [ht, hff, rowOfKey, hg]

/-- Claim C8 amended: over a storage state whose enumeration is N well-formed
records around one failing key, the bulk loader returns exactly N flattened
rows, one per successfully loaded record in enumeration order, skipping the
failing key; the failing key is logged when its processing throws, and is
skipped silently when its load merely yields no (truthy) data. -/
theorem claim_C8_bulk_amended (st : Store) (ks₁ ks₂ : List (List Char)) (k0 : List Char)
    (hfold : get_test_folders st = ks₁ ++ k0 :: ks₂)
    (hg1 : ∀ k ∈ ks₁, goodKeyB st k = true)
    (hg2 : ∀ k ∈ ks₂, goodKeyB st k = true)
    (hbad : throwsKeyB st k0 = true ∨ notFoundKeyB st k0 = true) :
    (load_all_test_data st).1 = (ks₁ ++ ks₂).map (rowOfKey st) ∧
    (load_all_test_data st).1.length = ks₁.length + ks₂.length ∧
    (throwsKeyB st k0 = true → (load_all_test_data st).2 = [k0]) ∧
    (notFoundKeyB st k0 = true → (load_all_test_data st).2 = []) := by
  have h1 := loadAllGo_allGood st ks₁ hg1
  have h2 := loadAllGo_allGood st ks₂ hg2
  have hstep : loadAllGo st (k0 :: ks₂) =
      (ks₂.map (rowOfKey st), if throwsKeyB st k0 = true then [k0] else []) := by
    simp only [loadAllGo, h2]
    cases hg : get_test_data k0 st with
    | error e => simp [throwsKeyB, hg]
    | ok d =>
      by_cases ht : yTruthy d
      · cases hf : flatten_test_data k0 d with
        | ok row =>
          exfalso
          rcases hbad with hb | hb
          · simp [throwsKeyB, hg, ht, hf] at hb
          · simp [notFoundKeyB, hg, ht] at hb
        | error e => simp [throwsKeyB, hg, ht, hf]
      · simp [throwsKeyB, hg, ht]
  have hall : load_all_test_data st =
      ((ks₁ ++ ks₂).map (rowOfKey st),
       if throwsKeyB st k0 = true then [k0] else []) := by
    unfold load_all_test_data
    rw [hfold, loadAllGo_append, h1, hstep]
    simp
  rw [hall]
  refine ⟨rfl, by simp, ?_, ?_⟩
  · intro ht; simp [ht]
  · intro hnf
    have ht : throwsKeyB st k0 = false := by
      cases hg : get_test_data k0 st with
      | error e => simp [notFoundKeyB, hg] at hnf
      | ok d =>
        simp only [notFoundKeyB, hg, Bool.not_eq_true'] at hnf
        simp [throwsKeyB, hg, hnf]
    simp [ht]

/-- Claim C8 counterexample: with one well-formed record and one record whose
load yields "not found" (folder with no data file), the bulk loader returns
exactly one row but logs nothing: the failing key is skipped silently, not
logged as the claim states. -/
theorem claim_C8_counterexample :
    (load_all_test_data
        [("g".data, FileContent.parsed (.mcons "date".data (.scalar (.ss "d".data)) .mnil)),
         ("nf".data, FileContent.absent)]).1.length = 1 ∧
    (load_all_test_data
        [("g".data, FileContent.parsed (.mcons "date".data (.scalar (.ss "d".data)) .mnil)),
         ("nf".data, FileContent.absent)]).2 = [] ∧
    notFoundKeyB
        [("g".data, FileContent.parsed (.mcons "date".data (.scalar (.ss "d".data)) .mnil)),
         ("nf".data, FileContent.absent)] "nf".data = true := by
  refine ⟨by decide, by decide, by decide⟩

/-- Witness for C8 on a concrete store with two good records around one
malformed (throwing) record. -/
theorem claim_C8_witness :
    (load_all_test_data
        [("a".data, FileContent.parsed (.mcons "notes".data (.scalar (.ss "x".data)) .mnil)),
         ("bad".data, FileContent.malformed),
         ("c".data, FileContent.parsed (.mcons "notes".data (.scalar (.ss "y".data)) .mnil))]).1.length = 1 + 1 ∧
    (load_all_test_data
        [("a".data, FileContent.parsed (.mcons "notes".data (.scalar (.ss "x".data)) .mnil)),
         ("bad".data, FileContent.malformed),
         ("c".data, FileContent.parsed (.mcons "notes".data (.scalar (.ss "y".data)) .mnil))]).2 = ["bad".data] :=
  ⟨(claim_C8_bulk_amended _ ["a".data] ["c".data] "bad".data (by decide)
      (by decide) (by decide) (Or.inl (by decide))).2.1,
   (claim_C8_bulk_amended _ ["a".data] ["c".data] "bad".data (by decide)
      (by decide) (by decide) (Or.inl (by decide))).2.2.1 (by decide)⟩

/-! ### Digit rendering and read-back lemmas -/

theorem digitVal_digitChar {d : Nat} (h : d < 10) : digitVal (Nat.digitChar d) = d := by
  interval_cases d <;> decide

theorem isDigit_digitChar {d : Nat} (h : d < 10) : (Nat.digitChar d).isDigit = true := by
  interval_cases d <;> decide

theorem valDigits_append_singleton (xs : List Char) (c : Char) :
    valDigits (xs ++ [c]) = 10 * valDigits xs + digitVal c := by
  simp [valDigits, List.foldl_append]

theorem natToCharsAux_spec : ∀ (fuel m : Nat), m < fuel →
    natToCharsAux fuel m ≠ [] ∧ (natToCharsAux fuel m).all Char.isDigit = true ∧
      valDigits (natToCharsAux fuel m) = m := by
  intro fuel
  induction fuel with
  | zero => intro m h; omega
  | succ f ih =>
    intro m hm
    by_cases h : m < 10
    · simp only [natToCharsAux, if_pos h]
      refine ⟨by simp, by simp [isDigit_digitChar h], ?_⟩
      simp [valDigits, digitVal_digitChar h]
    · have hd : m / 10 < f := by omega
      obtain ⟨h1, h2, h3⟩ := ih (m / 10) hd
      simp only [natToCharsAux, if_neg h]
      have h10 : m % 10 < 10 := by omega
      refine ⟨by simp, ?_, ?_⟩
      · simp [List.all_append, h2, isDigit_digitChar h10]
      · rw [valDigits_append_singleton, h3, digitVal_digitChar h10]
        omega

theorem natToChars_ne_nil (m : Nat) : natToChars m ≠ [] :=
  (natToCharsAux_spec (m + 1) m (by omega)).1

theorem natToChars_all_digit (m : Nat) : (natToChars m).all Char.isDigit = true :=
  (natToCharsAux_spec (m + 1) m (by omega)).2.1

theorem valDigits_natToChars (m : Nat) : valDigits (natToChars m) = m :=
  (natToCharsAux_spec (m + 1) m (by omega)).2.2

theorem pad3_all_digit {r : Nat} (h : r < 1000) : (pad3 r).all Char.isDigit = true := by
  have h1 : r / 100 < 10 := by omega
  have h2 : r / 10 % 10 < 10 := by omega
  have h3 : r % 10 < 10 := by omega
  simp [pad3, isDigit_digitChar, h1, h2, h3]

theorem valDigits_pad3 {r : Nat} (h : r < 1000) : valDigits (pad3 r) = r := by
  have h1 : r / 100 < 10 := by omega
  have h2 : r / 10 % 10 < 10 := by omega
  have h3 : r % 10 < 10 := by omega
  simp only [pad3, valDigits, List.foldl_cons, List.foldl_nil,
    digitVal_digitChar h1, digitVal_digitChar h2, digitVal_digitChar h3]
  omega

theorem valDigits_append_replicate_zero (xs : List Char) :
    ∀ z, valDigits (xs ++ List.replicate z '0') = valDigits xs * 10 ^ z := by
  intro z
  induction z with
  | zero => simp
  | succ z ih =>
    rw [List.replicate_succ', ← List.append_assoc, valDigits_append_singleton, ih]
    have : digitVal '0' = 0 := by decide
    rw [this]
    ring

/-! ### `takeWhile` / `dropWhile` / `rstrip` lemmas -/

theorem takeWhile_append_of_all {p : Char → Bool} (xs ys : List Char)
    (h : ∀ x ∈ xs, p x = true) :
    (xs ++ ys).takeWhile p = xs ++ ys.takeWhile p := by
  induction xs with
  | nil => simp
  | cons a l ih =>
    have ha := h a (by simp)
    simp [List.takeWhile_cons, ha, ih (fun x hx => h x (by simp [hx]))]

theorem dropWhile_append_of_all {p : Char → Bool} (xs ys : List Char)
    (h : ∀ x ∈ xs, p x = true) :
    (xs ++ ys).dropWhile p = ys.dropWhile p := by
  induction xs with
  | nil => simp
  | cons a l ih =>
    have ha := h a (by simp)
    simp [List.dropWhile_cons, ha, ih (fun x hx => h x (by simp [hx]))]

theorem dropWhile_append_of_ne {p : Char → Bool} :
    ∀ (xs ys : List Char), xs.dropWhile p ≠ [] →
      (xs ++ ys).dropWhile p = xs.dropWhile p ++ ys := by
  intro xs ys h
  induction xs with
  | nil => simp at h
  | cons a l ih =>
    by_cases hp : p a = true
    · rw [List.dropWhile_cons_of_pos hp] at h
      simp [List.dropWhile_cons, hp, ih h]
    · simp only [Bool.not_eq_true] at hp
      simp [List.dropWhile_cons, hp]

theorem dropWhile_nil_or_head_false (p : Char → Bool) :
    ∀ l : List Char, l.dropWhile p = [] ∨
      ∃ h t, l.dropWhile p = h :: t ∧ p h = false := by
  intro l
  induction l with
  | nil => left; rfl
  | cons a l ih =>
    by_cases hp : p a = true
    · rw [List.dropWhile_cons_of_pos hp]
      exact ih
    · simp only [Bool.not_eq_true] at hp
      right
      exact ⟨a, l, List.dropWhile_cons_of_neg (by simp [hp]), hp⟩

theorem contains_singleton (x c : Char) : ([c].contains x) = (x == c) := by
  cases h : x == c <;> simp_all [List.contains]

theorem rstrip_decomp (l : List Char) (c : Char) :
    ∃ z, l = pyRstripSet l [c] ++ List.replicate z c := by
  refine ⟨(l.reverse.takeWhile (fun x => [c].contains x)).length, ?_⟩
  have hsplit := List.takeWhile_append_dropWhile
    (p := fun x => [c].contains x) (l := l.reverse)
  have htw : l.reverse.takeWhile (fun x => [c].contains x) =
      List.replicate (l.reverse.takeWhile (fun x => [c].contains x)).length c := by
    apply List.eq_replicate_of_mem
    intro b hb
    have hpb := List.mem_takeWhile_imp hb
    rw [contains_singleton] at hpb
    exact eq_of_beq hpb
  calc l = l.reverse.reverse := by simp
    _ = ((l.reverse.takeWhile (fun x => [c].contains x)) ++
          (l.reverse.dropWhile (fun x => [c].contains x))).reverse := by rw [hsplit]
    _ = pyRstripSet l [c] ++ (l.reverse.takeWhile (fun x => [c].contains x)).reverse := by
          rw [List.reverse_append]; rfl
    _ = _ := by rw [htw, List.reverse_replicate]; simp

theorem rstrip_concat_last (l : List Char) (c : Char) (h : pyRstripSet l [c] ≠ []) :
    ∃ ys y, pyRstripSet l [c] = ys ++ [y] ∧ (y == c) = false := by
  rcases dropWhile_nil_or_head_false (fun x => [c].contains x) l.reverse with hd | ⟨y, t, hd, hy⟩
  · exact absurd (by unfold pyRstripSet; rw [hd]; rfl) h
  · refine ⟨t.reverse, y, ?_, ?_⟩
    · unfold pyRstripSet; rw [hd]; exact List.reverse_cons y t
    · rwa [contains_singleton] at hy

theorem rstrip_append_right (xs ys : List Char) (c : Char)
    (h : pyRstripSet ys [c] ≠ []) :
    pyRstripSet (xs ++ ys) [c] = xs ++ pyRstripSet ys [c] := by
  have hne : ys.reverse.dropWhile (fun x => [c].contains x) ≠ [] := by
    intro hh
    exact h (by unfold pyRstripSet; rw [hh]; rfl)
  simp only [pyRstripSet, List.reverse_append]
  rw [dropWhile_append_of_ne _ _ hne, List.reverse_append, List.reverse_reverse]

theorem rstrip_of_last_ne (ys : List Char) (y c : Char) (h : (y == c) = false) :
    pyRstripSet (ys ++ [y]) [c] = ys ++ [y] := by
  simp only [pyRstripSet, List.reverse_append, List.reverse_cons, List.reverse_nil,
    List.nil_append, List.singleton_append]
  have hne : y ≠ c := fun hh => by rw [hh] at h; simp at h
  rw [List.dropWhile_cons_of_neg (by simp [contains_singleton, h, hne])]
  simp

/-! ### `stripText` and `pyFloat` on rendered fixed-point texts -/

theorem digit_ne_dot {y : Char} (h : y.isDigit = true) : (y == '.') = false := by
  cases hbe : y == '.'
  · rfl
  · have hy : y = '.' := eq_of_beq hbe
    rw [hy] at h
    exact absurd h (by decide)

theorem contains_dot (xs F : List Char) : (xs ++ '.' :: F).contains '.' = true := by
  induction xs with
  | nil => simp [List.contains, List.elem]
  | cons a l ih =>
    simp only [List.cons_append, List.contains, List.elem] at *
    cases h : '.' == a
    · simp only [h]
      exact ih
    · simp [h]

theorem stripText_render (xs F : List Char)
    (hxs : ∀ x ∈ xs, (x == '.') = false)
    (hF : F.all Char.isDigit = true)
    (hF0 : pyRstripSet F ['0'] ≠ []) :
    stripText (xs ++ '.' :: F) = xs ++ '.' :: pyRstripSet F ['0'] := by
  have h1 : pyRstripSet ('.' :: F) ['0'] = '.' :: pyRstripSet F ['0'] := by
    have := rstrip_append_right ['.'] F '0' hF0
    simp only [List.singleton_append] at this
    exact this
  have h2 : pyRstripSet (xs ++ '.' :: F) ['0'] = xs ++ '.' :: pyRstripSet F ['0'] := by
    have := rstrip_append_right xs ('.' :: F) '0' (by rw [h1]; simp)
    rw [this, h1]
  obtain ⟨ys, y, hys, hy0⟩ := rstrip_concat_last F '0' hF0
  have hymem : y ∈ F := by
    obtain ⟨z, hz⟩ := rstrip_decomp F '0'
    rw [hz, hys]
    simp
  have hydig : y.isDigit = true := by
    rw [List.all_eq_true] at hF
    exact hF y hymem
  have h3 : pyRstripSet (xs ++ '.' :: pyRstripSet F ['0']) ['.'] =
      xs ++ '.' :: pyRstripSet F ['0'] := by
    have hassoc : xs ++ '.' :: pyRstripSet F ['0'] = (xs ++ '.' :: ys) ++ [y] := by
      rw [hys]; simp
    rw [hassoc, rstrip_of_last_ne _ _ _ (digit_ne_dot hydig), ← hassoc]
  have h4 : (xs ++ '.' :: F).takeWhile (fun c => c != '.') = xs := by
    rw [takeWhile_append_of_all xs _ (by intro x hx; simp [bne, hxs x hx])]
    rw [List.takeWhile_cons_of_neg (by simp)]
    simp
  have h5 : xs ++ '.' :: pyRstripSet F ['0'] ≠ xs := by
    intro hh
    apply_fun List.length at hh
    simp at hh
  unfold stripText
  rw [if_pos (contains_dot xs F), h2, h3, h4, if_pos h5]

theorem takeWhile_all_digits (F : List Char) (h : F.all Char.isDigit = true) :
    F.takeWhile Char.isDigit = F := by
  induction F with
  | nil => rfl
  | cons a l ih =>
    simp only [List.all_cons, Bool.and_eq_true] at h
    rw [List.takeWhile_cons_of_pos h.1, ih h.2]

theorem dropWhile_all_digits (F : List Char) (h : F.all Char.isDigit = true) :
    F.dropWhile Char.isDigit = [] := by
  induction F with
  | nil => rfl
  | cons a l ih =>
    simp only [List.all_cons, Bool.and_eq_true] at h
    rw [List.dropWhile_cons_of_pos h.1, ih h.2]

theorem pyFloatCore_render (I F : List Char) (hI : I ≠ [])
    (hId : I.all Char.isDigit = true) (hFd : F.all Char.isDigit = true) :
    pyFloatCore (I ++ '.' :: F) =
      some (mkRat ((valDigits I * 10 ^ F.length + valDigits F : ℕ) : ℤ) (10 ^ F.length)) := by
  have hmem : ∀ x ∈ I, x.isDigit = true := by
    rw [List.all_eq_true] at hId
    exact hId
  have htw : (I ++ '.' :: F).takeWhile Char.isDigit = I := by
    rw [takeWhile_append_of_all I _ hmem, List.takeWhile_cons_of_neg (by decide)]
    simp
  have hdw : (I ++ '.' :: F).dropWhile Char.isDigit = '.' :: F := by
    rw [dropWhile_append_of_all I _ hmem, List.dropWhile_cons_of_neg (by decide)]
  simp only [pyFloatCore, htw, hdw, takeWhile_all_digits F hFd, dropWhile_all_digits F hFd]
  rw [if_neg (by simp [hI])]
  rfl

theorem pyFloat_render (I F : List Char) (hI : I ≠ [])
    (hId : I.all Char.isDigit = true) (hFd : F.all Char.isDigit = true) :
    pyFloat (I ++ '.' :: F) =
      some (mkRat ((valDigits I * 10 ^ F.length + valDigits F : ℕ) : ℤ) (10 ^ F.length)) := by
  rcases I with _ | ⟨i0, I'⟩
  · exact absurd rfl hI
  have hi0 : i0.isDigit = true := by
    simp only [List.all_cons, Bool.and_eq_true] at hId
    exact hId.1
  rw [show pyFloat ((i0 :: I') ++ '.' :: F) = pyFloatCore ((i0 :: I') ++ '.' :: F) from ?_]
  · exact pyFloatCore_render _ _ hI hId hFd
  · unfold pyFloat
    split
    · rename_i r heq
      rw [List.cons_append] at heq
      have : i0 = '+' := (List.cons.injEq .. ▸ heq) |>.1
      rw [this] at hi0
      exact absurd hi0 (by decide)
    · rename_i r heq
      rw [List.cons_append] at heq
      have : i0 = '-' := (List.cons.injEq .. ▸ heq) |>.1
      rw [this] at hi0
      exact absurd hi0 (by decide)
    · rfl

theorem pyFloat_neg_char (cs : List Char) (q : ℚ) (h : pyFloatCore cs = some q) :
    pyFloat ('-' :: cs) = some (-q) := by
  show (pyFloatCore cs).map (fun q => mkRat (-q.num) q.den) = some (-q)
  rw [h]
  show some (mkRat (-q.num) q.den) = some (-q)
  congr 1
  rw [Rat.mkRat_eq_div]
  push_cast
  rw [neg_div, Rat.num_div_den]

/-! ### The serialized-float round trip -/

theorem rheMul_of_eq_mul (q : ℚ) (m n : ℤ) (h : m * q.num = n * (q.den : ℤ)) :
    rheMul m q = n := by
  have hb : (0 : ℤ) < (q.den : ℤ) := by exact_mod_cast q.pos
  have hbne : ((q.den : ℤ)) ≠ 0 := by omega
  simp only [rheMul, h, Int.mul_fdiv_cancel n hbne]
  have hr : n * (q.den : ℤ) - n * (q.den : ℤ) = 0 := by ring
  rw [hr]
  rw [if_neg (by omega), if_pos (by omega)]

theorem pyFloat_stripText_format (q : ℚ) (h3 : 1000 % q.den = 0) (hni : q.den ≠ 1) :
    pyFloat (stripText (formatFixed3 q)) = some q := by
  have hdpos : 0 < q.den := q.pos
  have hdvd : q.den ∣ 1000 := Nat.dvd_of_mod_eq_zero h3
  have hmulN : (1000 / q.den) * q.den = 1000 := Nat.div_mul_cancel hdvd
  set n : ℤ := q.num * ((1000 / q.den : ℕ) : ℤ) with hn
  have key : 1000 * q.num = n * (q.den : ℤ) := by
    rw [hn]
    calc 1000 * q.num = q.num * (((1000 / q.den) * q.den : ℕ) : ℤ) := by
          rw [hmulN]; push_cast; ring
      _ = q.num * ((1000 / q.den : ℕ) : ℤ) * (q.den : ℤ) := by push_cast; ring
  have hrhe : rheMul 1000 q = n := rheMul_of_eq_mul q 1000 n key
  have hqden : ((q.den : ℚ)) ≠ 0 := by
    have : q.den ≠ 0 := by omega
    exact_mod_cast this
  have hval : (n : ℚ) = 1000 * q := by
    have hcast : ((1000 * q.num : ℤ) : ℚ) = ((n * (q.den : ℤ) : ℤ) : ℚ) := by
      rw [key]
    push_cast at hcast
    have hq : (q.num : ℚ) / (q.den : ℚ) = q := Rat.num_div_den q
    calc (n : ℚ) = (n : ℚ) * (q.den : ℚ) / (q.den : ℚ) := by field_simp
      _ = 1000 * (q.num : ℚ) / (q.den : ℚ) := by rw [← hcast]
      _ = 1000 * ((q.num : ℚ) / (q.den : ℚ)) := by ring
      _ = 1000 * q := by rw [hq]
  have hn1000 : ¬ ((1000 : ℤ) ∣ n) := by
    rintro ⟨k, hk⟩
    have : q = (k : ℚ) := by
      have : ((n : ℤ) : ℚ) = ((1000 * k : ℤ) : ℚ) := by rw [hk]
      push_cast at this
      rw [hval] at this
      linarith
    rw [this] at hni
    exact hni (Rat.den_intCast k)
  have hm1000 : n.natAbs % 1000 ≠ 0 := by
    intro h0
    apply hn1000
    have h1 : (1000 : ℕ) ∣ n.natAbs := Nat.dvd_of_mod_eq_zero h0
    have h2 : ((1000 : ℤ)).natAbs ∣ n.natAbs := by simpa using h1
    exact Int.natAbs_dvd_natAbs.mp h2
  set m : Nat := n.natAbs with hm
  have hmlt : m % 1000 < 1000 := by omega
  set F : List Char := pad3 (m % 1000) with hF
  set I : List Char := natToChars (m / 1000) with hI
  have hFd : F.all Char.isDigit = true := pad3_all_digit hmlt
  have hId : I.all Char.isDigit = true := natToChars_all_digit _
  have hIne : I ≠ [] := natToChars_ne_nil _
  have hF0 : pyRstripSet F ['0'] ≠ [] := by
    intro h0
    obtain ⟨z, hz⟩ := rstrip_decomp F '0'
    rw [h0, List.nil_append] at hz
    have : valDigits F = 0 := by
      rw [hz]
      have := valDigits_append_replicate_zero [] z
      simpa [valDigits] using this
    rw [hF, valDigits_pad3 hmlt] at this
    exact hm1000 this
  set F0 : List Char := pyRstripSet F ['0'] with hF0def
  obtain ⟨z, hdecomp⟩ := rstrip_decomp F '0'
  rw [← hF0def] at hdecomp
  have hF0d : F0.all Char.isDigit = true := by
    have h := hFd
    rw [hdecomp, List.all_append, Bool.and_eq_true] at h
    exact h.1
  have hvalF : valDigits F = valDigits F0 * 10 ^ z := by
    conv_lhs => rw [hdecomp]
    exact valDigits_append_replicate_zero F0 z
  have hlen : F0.length + z = 3 := by
    have : F.length = 3 := rfl
    rw [hdecomp] at this
    simpa using this
  have hvalI : valDigits I = m / 1000 := valDigits_natToChars _
  have hvalFm : valDigits F = m % 1000 := valDigits_pad3 hmlt
  -- the common numeric identity
  have hkey : (mkRat ((valDigits I * 10 ^ F0.length + valDigits F0 : ℕ) : ℤ)
      (10 ^ F0.length) : ℚ) = (m : ℚ) / 1000 := by
    rw [Rat.mkRat_eq_div]
    push_cast
    rw [div_eq_div_iff (by positivity) (by norm_num : (1000 : ℚ) ≠ 0)]
    have hzp : (10 : ℚ) ^ z * 10 ^ F0.length = 1000 := by
      rw [← pow_add, (by omega : z + F0.length = 3)]
      norm_num
    have hmdec : (m : ℚ) = 1000 * ((m / 1000 : ℕ) : ℚ) + (valDigits F0 : ℚ) * 10 ^ z := by
      have h1 : 1000 * (m / 1000) + m % 1000 = m := Nat.div_add_mod m 1000
      have h2 : m % 1000 = valDigits F0 * 10 ^ z := by rw [← hvalFm, hvalF]
      rw [h2] at h1
      exact_mod_cast congrArg (fun x : ℕ => (x : ℚ)) h1.symm
    rw [hvalI, hmdec]
    linear_combination (-(valDigits F0 : ℚ)) * hzp
  by_cases hneg : n < 0
  · have hmn : (m : ℤ) = -n := by omega
    have hbody : formatFixed3 q = ('-' :: I) ++ '.' :: F := by
      simp only [formatFixed3, hrhe, if_pos hneg]
      rfl
    rw [hbody, stripText_render ('-' :: I) F ?hxs hFd hF0]
    case hxs =>
      intro x hx
      rcases List.mem_cons.mp hx with hx | hx
      · rw [hx]; rfl
      · rw [List.all_eq_true] at hId
        exact digit_ne_dot (hId x hx)
    rw [show ('-' :: I) ++ '.' :: F0 = '-' :: (I ++ '.' :: F0) from rfl]
    rw [pyFloat_neg_char _ _ (pyFloatCore_render I F0 hIne hId hF0d)]
    congr 1
    rw [hkey]
    have : (m : ℚ) = -(n : ℚ) := by exact_mod_cast hmn
    rw [this, hval]
    ring
  · have hmn : (m : ℤ) = n := by omega
    have hbody : formatFixed3 q = I ++ '.' :: F := by
      simp only [formatFixed3, hrhe, if_neg hneg]
    rw [hbody, stripText_render I F ?hxs hFd hF0]
    case hxs =>
      intro x hx
      rw [List.all_eq_true] at hId
      exact digit_ne_dot (hId x hx)
    rw [pyFloat_render I F0 hIne hId hF0d]
    congr 1
    rw [hkey]
    have : (m : ℚ) = (n : ℚ) := by exact_mod_cast hmn
    rw [this, hval]
    ring

theorem loadVal_serVal (v : YVal) (h : threeDecV v = true) :
    vEquivB (loadVal (serVal v)) v = true := by
  cases v with
  | vint n => simp [serVal, loadVal, vEquivB]
  | vstr s => simp [serVal, loadVal, vEquivB]
  | vnone => rfl
  | vfloat q =>
    by_cases hq : qIsInt q = true
    · have hden : q.den = 1 := by simpa [qIsInt] using hq
      simp [serVal, hq, loadVal, vEquivB, hden, pyTrunc]
    · have hden : q.den ≠ 1 := by simpa [qIsInt] using hq
      have h1000 : 1000 % q.den = 0 := by simpa [threeDecV] using h
      simp [serVal, hq, loadVal, pyFloat_stripText_format q h1000 hden, vEquivB]

theorem loadDoc_serDoc (d : YDoc) (h : threeDecDoc d = true) :
    yEquivB (loadDoc (serDoc d)) d = true := by
  induction d with
  | scalar v => simpa [serDoc, loadDoc, yEquivB] using loadVal_serVal v (by simpa [threeDecDoc] using h)
  | mnil => rfl
  | mcons k v r ihv ihr =>
    simp only [threeDecDoc, Bool.and_eq_true] at h
    simp [serDoc, loadDoc, yEquivB, ihv h.1, ihr h.2]

/-- Shape of the stripped float text: some prefix, a dot, then a nonempty run
of digits not ending in `'0'` (trailing zeros trimmed, at least one digit
after the point retained). -/
theorem stripText_format_spec (q : ℚ) (h3 : 1000 % q.den = 0) (hni : q.den ≠ 1) :
    ∃ pre F0, stripText (formatFixed3 q) = pre ++ '.' :: F0 ∧ F0 ≠ [] ∧
      F0.all Char.isDigit = true ∧ F0.getLast? ≠ some '0' := by
  have hdvd : q.den ∣ 1000 := Nat.dvd_of_mod_eq_zero h3
  have hmulN : (1000 / q.den) * q.den = 1000 := Nat.div_mul_cancel hdvd
  set n : ℤ := q.num * ((1000 / q.den : ℕ) : ℤ) with hn
  have key : 1000 * q.num = n * (q.den : ℤ) := by
    rw [hn]
    calc 1000 * q.num = q.num * (((1000 / q.den) * q.den : ℕ) : ℤ) := by
          rw [hmulN]; push_cast; ring
      _ = q.num * ((1000 / q.den : ℕ) : ℤ) * (q.den : ℤ) := by push_cast; ring
  have hrhe : rheMul 1000 q = n := rheMul_of_eq_mul q 1000 n key
  have hqden : ((q.den : ℚ)) ≠ 0 := by
    have : q.den ≠ 0 := q.den_nz
    exact_mod_cast this
  have hval : (n : ℚ) = 1000 * q := by
    have hcast : ((1000 * q.num : ℤ) : ℚ) = ((n * (q.den : ℤ) : ℤ) : ℚ) := by rw [key]
    push_cast at hcast
    have hq : (q.num : ℚ) / (q.den : ℚ) = q := Rat.num_div_den q
    calc (n : ℚ) = (n : ℚ) * (q.den : ℚ) / (q.den : ℚ) := by field_simp
      _ = 1000 * (q.num : ℚ) / (q.den : ℚ) := by rw [← hcast]
      _ = 1000 * ((q.num : ℚ) / (q.den : ℚ)) := by ring
      _ = 1000 * q := by rw [hq]
  have hn1000 : ¬ ((1000 : ℤ) ∣ n) := by
    rintro ⟨k, hk⟩
    have : q = (k : ℚ) := by
      have : ((n : ℤ) : ℚ) = ((1000 * k : ℤ) : ℚ) := by rw [hk]
      push_cast at this
      rw [hval] at this
      linarith
    rw [this] at hni
    exact hni (Rat.den_intCast k)
  have hm1000 : n.natAbs % 1000 ≠ 0 := by
    intro h0
    apply hn1000
    have h1 : (1000 : ℕ) ∣ n.natAbs := Nat.dvd_of_mod_eq_zero h0
    have h2 : ((1000 : ℤ)).natAbs ∣ n.natAbs := by simpa using h1
    exact Int.natAbs_dvd_natAbs.mp h2
  set m : Nat := n.natAbs with hm
  have hmlt : m % 1000 < 1000 := by omega
  set F : List Char := pad3 (m % 1000) with hF
  set I : List Char := natToChars (m / 1000) with hI
  have hFd : F.all Char.isDigit = true := pad3_all_digit hmlt
  have hId : I.all Char.isDigit = true := natToChars_all_digit _
  have hF0 : pyRstripSet F ['0'] ≠ [] := by
    intro h0
    obtain ⟨z, hz⟩ := rstrip_decomp F '0'
    rw [h0, List.nil_append] at hz
    have : valDigits F = 0 := by
      rw [hz]
      have := valDigits_append_replicate_zero [] z
      simpa [valDigits] using this
    rw [hF, valDigits_pad3 hmlt] at this
    exact hm1000 this
  obtain ⟨ys, y, hys, hy0⟩ := rstrip_concat_last F '0' hF0
  have hlast : (pyRstripSet F ['0']).getLast? ≠ some '0' := by
    rw [hys, List.getLast?_concat]
    intro hc
    have : y = '0' := by simpa using hc
    rw [this] at hy0
    simp at hy0
  have hF0d : (pyRstripSet F ['0']).all Char.isDigit = true := by
    obtain ⟨z, hdecomp⟩ := rstrip_decomp F '0'
    have h := hFd
    rw [hdecomp, List.all_append, Bool.and_eq_true] at h
    exact h.1
  by_cases hneg : n < 0
  · refine ⟨'-' :: I, pyRstripSet F ['0'], ?_, by rw [hys]; simp, hF0d, hlast⟩
    have hbody : formatFixed3 q = ('-' :: I) ++ '.' :: F := by
      simp only [formatFixed3, hrhe, if_pos hneg]
      rfl
    rw [hbody, stripText_render ('-' :: I) F ?hxs hFd hF0]
    case hxs =>
      intro x hx
      rcases List.mem_cons.mp hx with hx | hx
      · rw [hx]; rfl
      · rw [List.all_eq_true] at hId
        exact digit_ne_dot (hId x hx)
  · refine ⟨I, pyRstripSet F ['0'], ?_, by rw [hys]; simp, hF0d, hlast⟩
    have hbody : formatFixed3 q = I ++ '.' :: F := by
      simp only [formatFixed3, hrhe, if_neg hneg]
    rw [hbody, stripText_render I F ?hxs hFd hF0]
    case hxs =>
      intro x hx
      rw [List.all_eq_true] at hId
      exact digit_ne_dot (hId x hx)

/-- Claim C3 counterexample: saving a record with float value `1.0001`
(more than three decimal digits) and loading it back yields `1.0`, not a
record equal to the saved one: serialization rounds to three decimals. -/
theorem claim_C3_counterexample :
    get_test_data "t".data (save_test_data "t".data
      (.mcons "x".data (.scalar (.vfloat (mkRat 10001 10000))) .mnil) []) =
      .ok (.mcons "x".data (.scalar (.vfloat 1)) .mnil) ∧
    (mkRat 10001 10000 : ℚ) ≠ 1 ∧
    yEquivB (.mcons "x".data (.scalar (.vfloat 1)) .mnil)
      (.mcons "x".data (.scalar (.vfloat (mkRat 10001 10000))) .mnil) = false := by
  refine ⟨by decide, by decide, by decide⟩

/-- Claim C3 amended: for every test ID, store and record (a mapping) whose
float values all have at most three decimal digits, `save` then `load`
returns a record equal to the saved one field-for-field under Python
equality; a float equal to its integer truncation serializes as an int node
(no decimal point), and every other such float serializes as decimal text
with a nonempty digit run after the point, trailing zeros trimmed, parsing
back to exactly the saved value. -/
theorem claim_C3_roundtrip_amended (k : List Char) (st : Store) (d : YDoc)
    (hmap : isMapDoc d = true) (h3 : threeDecDoc d = true) :
    (∃ d', get_test_data k (save_test_data k d st) = .ok d' ∧ yEquivB d' d = true) ∧
    (∀ q : ℚ, qIsInt q = true → serVal (.vfloat q) = .si (pyTrunc q)) ∧
    (∀ q : ℚ, 1000 % q.den = 0 → qIsInt q = false →
      ∃ pre F0, serVal (.vfloat q) = .sf (pre ++ '.' :: F0) ∧ F0 ≠ [] ∧
        F0.all Char.isDigit = true ∧ F0.getLast? ≠ some '0' ∧
        loadVal (serVal (.vfloat q)) = .vfloat q) := by
  refine ⟨?_, ?_, ?_⟩
  · have hself : alookup k (save_test_data k d st) = some (.parsed (serDoc d)) := by
      simp [save_test_data, alookup]
    cases d with
    | scalar v => simp [isMapDoc] at hmap
    | mnil => exact ⟨.mnil, by simp [get_test_data, hself, serDoc, loadDoc, yTruthy], rfl⟩
    | mcons k0 v r =>
      refine ⟨loadDoc (serDoc (.mcons k0 v r)), ?_, loadDoc_serDoc _ h3⟩
      simp [get_test_data, hself, serDoc, loadDoc, yTruthy]
  · intro q hq
    simp [serVal, hq]
  · intro q h30 hqf
    have hden : q.den ≠ 1 := by simpa [qIsInt] using hqf
    obtain ⟨pre, F0, hsh, hne, hdig, hlast⟩ := stripText_format_spec q h30 hden
    refine ⟨pre, F0, ?_, hne, hdig, hlast, ?_⟩
    · simp [serVal, hqf, hsh]
    · simp [serVal, hqf, loadVal, pyFloat_stripText_format q h30 hden]

/-- Witness for C3 at a concrete store and a record holding `1.5`. -/
theorem claim_C3_witness :
    isMapDoc (.mcons "w".data (.scalar (.vfloat (mkRat 3 2))) .mnil) = true ∧
    threeDecDoc (.mcons "w".data (.scalar (.vfloat (mkRat 3 2))) .mnil) = true ∧
    (∃ d', get_test_data "t".data (save_test_data "t".data
        (.mcons "w".data (.scalar (.vfloat (mkRat 3 2))) .mnil) []) = .ok d' ∧
      yEquivB d' (.mcons "w".data (.scalar (.vfloat (mkRat 3 2))) .mnil) = true) :=
  ⟨by decide, by decide,
   (claim_C3_roundtrip_amended "t".data [] _ (by decide) (by decide)).1⟩
